import Mathlib

/-!
Verification of the task-flow-organizer service against its specification.

The repository is a FastAPI CRUD service (router → service → repository →
relational store) with a rate limiter and a security-header middleware.
This file shallowly embeds the parts of the code the claims are about:

* `app/models/task.py` — the `Priority` / `Status` enumerations, the `Task`
  row, the `TaskCreate` / `TaskUpdate` pydantic schemas and their field
  constraints;
* `app/repositories/task_repository.py` — `get`, `get_multi`, `create`,
  `update`, `delete` over an explicit list-of-rows store;
* `app/api/v1/endpoints/tasks.py` — the endpoint bodies (`get_tasks`,
  `get_task_stats`, `delete_task`) as pure functions of the store;
* `app/main.py` — `SecurityHeadersMiddleware.dispatch` over an explicit
  response value with a case-insensitive header multimap;
* the fixed-window rate limiter (quota declarations live in the repository,
  the counting algorithm in the `slowapi` dependency, so that part is
  modelled from the spec).

Stores are lists of rows; the primary-key uniqueness the database enforces
appears as a `Nodup` hypothesis where a proof needs it.  Timestamps are
integers (the service stores naive datetimes).
-/

namespace TaskFlow

/-- Enumeration `Priority` from `app/models/task.py` (values low, medium, high). -/
inductive Priority where
  | low
  | medium
  | high
deriving DecidableEq, Repr

/-- Enumeration `Status` from `app/models/task.py` (values todo, in_progress, done, cancelled). -/
inductive Status where
  | todo
  | in_progress
  | done
  | cancelled
deriving DecidableEq, Repr

/-- String value of a `Priority` member (the `.value` of the Python `str` enum). -/
def Priority.value : Priority → String
  | .low => "low"
  | .medium => "medium"
  | .high => "high"

/-- String value of a `Status` member (the `.value` of the Python `str` enum). -/
def Status.value : Status → String
  | .todo => "todo"
  | .in_progress => "in_progress"
  | .done => "done"
  | .cancelled => "cancelled"

/-- All members of `Priority`, in declaration order. -/
def Priority.all : List Priority := [.low, .medium, .high]

/-- All members of `Status`, in declaration order. -/
def Status.all : List Status := [.todo, .in_progress, .done, .cancelled]

/-- A stored task row: the `Task` table model of `app/models/task.py`.
`title`, `priority`, `status`, `created_at`, `updated_at` are non-nullable
columns; `description` and `due_date` are nullable.  Datetimes are embedded
as integers (the column stores naive timestamps). -/
structure Task where
  id : Nat
  title : String
  description : Option String
  priority : Priority
  status : Status
  due_date : Option Int
  created_at : Int
  updated_at : Int
deriving DecidableEq, Repr

/-- Field constraints of `TaskBase` as pydantic enforces them on a stored
row: `title` has `min_length=1, max_length=200`, `description` has
`max_length=2000`; `priority` and `status` are enum-typed by construction. -/
def Task.constraintsOk (t : Task) : Bool :=
  decide (1 ≤ t.title.length) && decide (t.title.length ≤ 200) &&
    (match t.description with
     | some d => decide (d.length ≤ 2000)
     | none => true)

/-- Filter predicate of `TaskRepository.get_multi`: a `status` /
`priority` query-string filter is applied only when the string is truthy
in Python (present and non-empty), and compares against the enum value. -/
def matchesFilters (status priority : Option String) (t : Task) : Bool :=
  (match status with
   | some s => if s != "" then t.status.value == s else true
   | none => true) &&
  (match priority with
   | some p => if p != "" then t.priority.value == p else true
   | none => true)

/-- The filtered query built by `TaskRepository.get_multi` before
count / pagination are applied. -/
def filteredTasks (store : List Task) (status priority : Option String) : List Task :=
  store.filter (matchesFilters status priority)

namespace TaskRepository

/-- `TaskRepository.get`: first row whose id matches, if any. -/
def get (store : List Task) (task_id : Nat) : Option Task :=
  store.find? (fun t => t.id == task_id)

/-- `TaskRepository.get_multi`: build the filtered query, take the total
from a count over that same query, then apply `offset skip` and
`limit limit` to produce the page.  Returns `(tasks, total_count)`. -/
def get_multi (store : List Task) (skip limit : Nat)
    (status priority : Option String) : List Task × Nat :=
  let q := filteredTasks store status priority
  let total := q.length
  ((q.drop skip).take limit, total)

/-- `TaskRepository.delete`: look the row up by id; if present, delete
that row object and report `true`, otherwise report `false`. -/
def delete (store : List Task) (task_id : Nat) : List Task × Bool :=
  match get store task_id with
  | some obj => (store.erase obj, true)
  | none => (store, false)

end TaskRepository

/-- Endpoint `GET /api/v1/tasks/` (`get_tasks` in
`app/api/v1/endpoints/tasks.py`): calls the service, binds
`tasks, _ = ...`, and returns only the task list. -/
def get_tasks (store : List Task) (skip limit : Nat)
    (status priority : Option String) : List Task :=
  (TaskRepository.get_multi store skip limit status priority).1

/-- Frequency of a status among the fetched tasks, as accumulated by the
`status_counts` dictionary loop in `get_task_stats`. -/
def status_counts (tasks : List Task) (s : Status) : Nat :=
  tasks.countP (fun t => t.status == s)

/-- Frequency of a priority among the fetched tasks, as accumulated by the
`priority_counts` dictionary loop in `get_task_stats`. -/
def priority_counts (tasks : List Task) (p : Priority) : Nat :=
  tasks.countP (fun t => t.priority == p)

/-- Endpoint `GET /api/v1/tasks/stats` (`get_task_stats`): fetches
`get_tasks(db, skip=0, limit=1000)` and returns the total together with
the two frequency maps computed over the fetched tasks. -/
def get_task_stats (store : List Task) :
    Nat × (Status → Nat) × (Priority → Nat) :=
  let fetched := (TaskRepository.get_multi store 0 1000 none none).1
  let total := (TaskRepository.get_multi store 0 1000 none none).2
  (total, status_counts fetched, priority_counts fetched)

/-- Sum of the values of the by-status frequency map (every key that can
occur in the dictionary). -/
def sumStatusCounts (f : Status → Nat) : Nat := (Status.all.map f).sum

/-- Sum of the values of the by-priority frequency map. -/
def sumPriorityCounts (f : Priority → Nat) : Nat := (Priority.all.map f).sum

/-- Endpoint `DELETE /api/v1/tasks/{task_id}` (`delete_task`): 204 on
successful delete, 404 when the service reports the id absent. -/
def delete_task (store : List Task) (task_id : Nat) : List Task × Nat :=
  let r := TaskRepository.delete store task_id
  if r.2 then (r.1, 204) else (r.1, 404)

/-- Schema `TaskCreate` of `app/models/task.py` after parsing: `title`
required, `description` and `due_date` optional, `priority` defaulting to
medium and `status` to todo; the `due_date` validator has already
normalised the timestamp to naive, so it is a plain integer here. -/
structure TaskCreate where
  title : String
  description : Option String := none
  priority : Priority := .medium
  status : Status := .todo
  due_date : Option Int := none
deriving DecidableEq, Repr

/-- Boundary validation pydantic performs on a `TaskCreate` body beyond
its typing: `title` length in 1..200, `description` length at most 2000.
Enum typing of `priority` / `status` is by construction; an invalid enum
string never parses into this structure at all (422). -/
def TaskCreate.fieldsOk (c : TaskCreate) : Bool :=
  decide (1 ≤ c.title.length) && decide (c.title.length ≤ 200) &&
    (match c.description with
     | some d => decide (d.length ≤ 2000)
     | none => true)

/-- Schema `TaskUpdate` of `app/models/task.py`.  Every field is
`Optional[...]` with default `None`; the outer `Option` records whether
the field was present in the JSON payload at all (pydantic's fields-set
tracking, consumed by `model_dump(exclude_unset=True)`), the inner
`Option` records an explicit JSON `null`. -/
structure TaskUpdate where
  title : Option (Option String) := none
  description : Option (Option String) := none
  priority : Option (Option Priority) := none
  status : Option (Option Status) := none
  due_date : Option (Option Int) := none
deriving DecidableEq, Repr

/-- Boundary validation pydantic performs on a `TaskUpdate` body: a
supplied string `title` must have length 1..200 and a supplied string
`description` at most 2000; an explicit `null` is accepted for every
field because each is typed `Optional`.  Wrong enum strings never parse
(422). -/
def TaskUpdate.fieldsOk (u : TaskUpdate) : Bool :=
  (match u.title with
   | some (some s) => decide (1 ≤ s.length) && decide (s.length ≤ 200)
   | _ => true) &&
  (match u.description with
   | some (some d) => decide (d.length ≤ 2000)
   | _ => true)

/-- State of the ORM row object after the `setattr` loop of
`TaskRepository.update` and before the flush: every attribute can hold
`None` at this point, because `setattr` bypasses column typing. -/
structure TaskRow where
  id : Nat
  title : Option String
  description : Option String
  priority : Option Priority
  status : Option Status
  due_date : Option Int
  created_at : Int
  updated_at : Int
deriving DecidableEq, Repr

/-- View of a stored task as the ORM row object handed to the update. -/
def Task.toRow (t : Task) : TaskRow :=
  { id := t.id, title := some t.title, description := t.description,
    priority := some t.priority, status := some t.status,
    due_date := t.due_date, created_at := t.created_at,
    updated_at := t.updated_at }

/-- The `for field, value in update_data.items(): setattr(db_obj, field, value)`
loop of `TaskRepository.update`: `update_data` is
`obj_in.model_dump(exclude_unset=True)`, so exactly the payload-present
fields are written, explicit nulls included; `id`, `created_at` and
`updated_at` are not fields of `TaskUpdate` and are never touched. -/
def applySetattr (db_obj : TaskRow) (obj_in : TaskUpdate) : TaskRow :=
  { db_obj with
    title := match obj_in.title with | some v => v | none => db_obj.title,
    description := match obj_in.description with | some v => v | none => db_obj.description,
    priority := match obj_in.priority with | some v => v | none => db_obj.priority,
    status := match obj_in.status with | some v => v | none => db_obj.status,
    due_date := match obj_in.due_date with | some v => v | none => db_obj.due_date }

/-- Flush of the row to the store: the database enforces the NOT NULL
constraints of the non-`Optional` columns (`title`, `priority`,
`status`); a row violating them raises (the request fails and the
transaction is rolled back — embedded as `none`), otherwise the row is
persisted as a `Task`. -/
def TaskRow.flush (r : TaskRow) : Option Task :=
  match r.title, r.priority, r.status with
  | some t, some p, some s =>
      some { id := r.id, title := t, description := r.description,
             priority := p, status := s, due_date := r.due_date,
             created_at := r.created_at, updated_at := r.updated_at }
  | _, _, _ => none

/-- `TaskRepository.update` on an already-fetched row: apply the
payload-present fields with `setattr`, then flush.  `none` is the
request-failing flush (NOT NULL violation → rollback, nothing stored). -/
def TaskRepository.update (db_obj : Task) (obj_in : TaskUpdate) : Option Task :=
  (applySetattr db_obj.toRow obj_in).flush

/-- `TaskRepository.create`: instantiate the table model from the
validated `TaskCreate` payload; the store assigns the id and the
default factories stamp `created_at` / `updated_at` with the current
time. -/
def TaskRepository.create (obj_in : TaskCreate) (new_id : Nat) (now : Int) : Task :=
  { id := new_id, title := obj_in.title, description := obj_in.description,
    priority := obj_in.priority, status := obj_in.status,
    due_date := obj_in.due_date, created_at := now, updated_at := now }

/-- An HTTP response as the middleware sees it: status code, body, and a
header multimap.  Starlette header names are case-insensitive. -/
structure Response where
  statusCode : Nat
  body : String
  headers : List (String × String)
deriving DecidableEq, Repr

/-- ASCII lowercasing of one character (starlette lowercases header names
byte-wise before comparing). -/
def lowerChar (c : Char) : Char :=
  if c.isUpper then Char.ofNat (c.toNat + 32) else c

/-- Comparison key of a header name: its characters, lowercased. -/
def nameKey (s : String) : List Char := s.data.map lowerChar

/-- Case-insensitive membership test, the `"X" in response.headers` of
starlette's `Headers.__contains__`. -/
def headersContain (hs : List (String × String)) (name : String) : Bool :=
  hs.any (fun p => nameKey p.1 == nameKey name)

/-- Case-insensitive lookup of the first value carried under a header
name. -/
def headerGet? (hs : List (String × String)) (name : String) : Option String :=
  (hs.find? (fun p => nameKey p.1 == nameKey name)).map Prod.snd

/-- One `if "X" not in response.headers: response.headers["X"] = v` step
of the middleware: appended only when the name is absent
(case-insensitively), otherwise the headers are untouched. -/
def setIfAbsent (hs : List (String × String)) (name val : String) :
    List (String × String) :=
  if headersContain hs name then hs else hs ++ [(name, val)]

/-- Value the middleware assigns to `Content-Security-Policy` in
`app/main.py` (same-origin defaults plus the Swagger CDN allowances). -/
def cspValue : String :=
  "default-src \x27self\x27; " ++
  "script-src \x27self\x27 \x27\x75nsafe-inline\x27 \x27\x75nsafe-eval\x27 https://cdn.jsdelivr.net; " ++
  "style-src \x27self\x27 \x27\x75nsafe-inline\x27 https://cdn.jsdelivr.net; " ++
  "img-src \x27self\x27 data: https://fastapi.tiangolo.com; " ++
  "connect-src \x27self\x27 http://localhost:* http://127.0.0.1:*"

/-- The seven hardening headers `SecurityHeadersMiddleware.dispatch`
writes, with their fixed values, in source order. -/
def securityHeaderList : List (String × String) :=
  [("X-Content-Type-Options", "nosniff"),
   ("X-Frame-Options", "DENY"),
   ("X-XSS-Protection", "1; mode=block"),
   ("Strict-Transport-Security", "max-age=31536000; includeSubDomains"),
   ("Content-Security-Policy", cspValue),
   ("Referrer-Policy", "strict-origin-when-cross-origin"),
   ("Permissions-Policy", "geolocation=(), microphone=()")]

namespace SecurityHeadersMiddleware

/-- Body of `SecurityHeadersMiddleware.dispatch` after
`response = await call_next(request)` returned `resp`: seven
set-if-absent header writes, nothing else. -/
def dispatch (resp : Response) : Response :=
  { resp with
    headers := securityHeaderList.foldl (fun hs p => setIfAbsent hs p.1 p.2) resp.headers }

end SecurityHeadersMiddleware

/-- Outbound response path of the middleware stack in `app/main.py`:
`CORSMiddleware` is added first and `SecurityHeadersMiddleware` second,
so the security middleware is outermost and processes the response
after CORS header assignment (`cors` here is whatever header assignment
the CORS layer performed). -/
def outboundPipeline (cors : Response → Response) (resp : Response) : Response :=
  SecurityHeadersMiddleware.dispatch (cors resp)

/-- Rate-limit bucket: window start (seconds) and request count, the
ephemeral per-key state of the fixed-window counter. -/
structure Bucket where
  windowStart : Nat
  count : Nat
deriving DecidableEq, Repr

/-- Key of a rate-limit bucket: (remote client address, route identifier),
per `Limiter(key_func=get_remote_address)` and per-route decorators. -/
abbrev RateKey := String × String

/-- In-memory bucket table of the limiter, keyed by `RateKey`. -/
abbrev LimiterState := List (RateKey × Bucket)

/-- Write a bucket into the table, replacing any existing entry for the
key. -/
def setBucket (st : LimiterState) (key : RateKey) (b : Bucket) : LimiterState :=
  (key, b) :: st.filter (fun p => !(p.1 == key))

/-- Modelled from the spec: the fixed-window check the `slowapi`
`Limiter` performs for a `@limiter.limit("N/minute")` route — the
declarations are in this repository (`app/core/rate_limiter.py` and the
route decorators) but the counting algorithm lives in the slowapi/limits
dependency.  Spec: look up or create the key's bucket with a 60-second
window; if the window has elapsed, reset the count and restart the
window; increment; reject exactly when the post-increment count exceeds
the quota `n`.  Returns the new table and whether the request is
allowed. -/
def hit (st : LimiterState) (key : RateKey) (now : Nat) (n : Nat) :
    LimiterState × Bool :=
  let b0 : Bucket :=
    match st.lookup key with
    | some b => if b.windowStart + 60 ≤ now then { windowStart := now, count := 0 } else b
    | none => { windowStart := now, count := 0 }
  let b1 : Bucket := { windowStart := b0.windowStart, count := b0.count + 1 }
  (setBucket st key b1, decide (b1.count ≤ n))

/-- Modelled from the spec: requests from one key processed in sequence
at the given times; returns the allow/reject decision for each. -/
def runSeq (key : RateKey) (n : Nat) : LimiterState → List Nat → List Bool
  | _, [] => []
  | st, t :: ts =>
      let r := hit st key t n
      r.2 :: runSeq key n r.1 ts

/-- Modelled from the spec: the request-level guard a rate-limited route
places around its handler — on rejection the handler is not invoked and
the application state `s` is returned unchanged with a 429; on success
the handler runs and its status is returned. -/
def rateLimitedCall {σ : Type} (st : LimiterState) (key : RateKey) (now n : Nat)
    (handler : σ → σ × Nat) (s : σ) : LimiterState × σ × Nat :=
  let r := hit st key now n
  if r.2 then
    let h := handler s
    (r.1, h.1, h.2)
  else
    (r.1, s, 429)

/-- Declared quotas (requests per 60-second window) of every rate-limited
route, from the `@limiter.limit` decorators in `app/main.py` and
`app/api/v1/endpoints/tasks.py`. -/
def routeQuotas : List (String × Nat) :=
  [("root", 100),
   ("health_check", 200),
   ("create_task", 20),
   ("get_tasks", 100),
   ("get_task_stats", 50),
   ("get_task", 100),
   ("update_task", 30),
   ("delete_task", 20)]

/-- A minimal valid stored task, used as concrete witness data. -/
def sampleTask (i : Nat) : Task :=
  { id := i, title := "t", description := none, priority := .medium,
    status := .todo, due_date := none, created_at := 0, updated_at := 0 }

/-- The task produced by the spec's `POST` scenario payload. -/
def sampleValidTask : Task :=
  { id := 1, title := "Buy milk", description := none, priority := .medium,
    status := .todo, due_date := none, created_at := 0, updated_at := 0 }

/-- A `PATCH` body that is exactly `\x7b"title": null\x7d`: the field is
present in the payload and explicitly null. -/
def nullTitleUpdate : TaskUpdate := { title := some none }

/-!  Theorems.  -/

theorem filteredTasks_none (store : List Task) :
    filteredTasks store none none = store := by
  simp [filteredTasks, matchesFilters]

/-- C6: for every list call with skip ≥ 0 (all naturals) and
1 ≤ limit ≤ 100, the returned total is the number of stored tasks
matching the filter predicate (computed over the same filtered query as
the page), the page holds at most `limit` tasks, and every task on the
page satisfies the filter. -/
theorem get_multi_total_and_page (store : List Task) (skip limit : Nat)
    (status priority : Option String) (h1 : 1 ≤ limit) (h2 : limit ≤ 100) :
    (TaskRepository.get_multi store skip limit status priority).2
        = (filteredTasks store status priority).length ∧
    (TaskRepository.get_multi store skip limit status priority).1.length ≤ limit ∧
    ∀ t ∈ (TaskRepository.get_multi store skip limit status priority).1,
      matchesFilters status priority t = true := by
  refine ⟨rfl, ?_, ?_⟩
  · simp [TaskRepository.get_multi]
  · intro t ht
    have h3 : t ∈ filteredTasks store status priority :=
      List.mem_of_mem_drop (List.mem_of_mem_take ht)
    exact (List.mem_filter.mp h3).2

theorem get_multi_total_and_page_witness :
    1 ≤ 5 ∧ (5 : Nat) ≤ 100 ∧
    ((TaskRepository.get_multi [sampleTask 1, sampleTask 2] 0 5 none none).2
        = (filteredTasks [sampleTask 1, sampleTask 2] none none).length ∧
     (TaskRepository.get_multi [sampleTask 1, sampleTask 2] 0 5 none none).1.length ≤ 5 ∧
     ∀ t ∈ (TaskRepository.get_multi [sampleTask 1, sampleTask 2] 0 5 none none).1,
       matchesFilters none none t = true) :=
  ⟨by decide, by decide,
   get_multi_total_and_page [sampleTask 1, sampleTask 2] 0 5 none none
     (by decide) (by decide)⟩

theorem flatMap_chunks {α : Type} (limit : Nat) (hl : 0 < limit) :
    ∀ (n : Nat) (l : List α), l.length ≤ n * limit →
      (List.range n).flatMap (fun i => (l.drop (i * limit)).take limit) = l := by
  intro n
  induction n with
  | zero =>
      intro l h
      simp only [Nat.zero_mul, Nat.le_zero] at h
      simp [List.eq_nil_of_length_eq_zero h]
  | succ n ih =>
      intro l h
      have hfun : ∀ i : Nat,
          (l.drop (Nat.succ i * limit)).take limit
            = ((l.drop limit).drop (i * limit)).take limit := by
        intro i
        rw [List.drop_drop, Nat.succ_mul]
        congr 2
        omega
      rw [Nat.succ_mul] at h
      have hlen : (l.drop limit).length ≤ n * limit := by
        simp only [List.length_drop]
        omega
      rw [List.range_succ_eq_map, List.flatMap_cons, List.flatMap_map]
      have htail :
          ((List.range n).flatMap fun a => (l.drop (Nat.succ a * limit)).take limit)
            = l.drop limit := by
        calc ((List.range n).flatMap fun a => (l.drop (Nat.succ a * limit)).take limit)
            = (List.range n).flatMap
                (fun i => ((l.drop limit).drop (i * limit)).take limit) := by
              apply List.flatMap_congr
              intro i _
              exact hfun i
          _ = l.drop limit := ih (l.drop limit) hlen
      rw [htail]
      simpa using List.take_append_drop limit l

/-- C7: for a fixed store and filter, concatenating the pages returned at
offsets 0, limit, 2·limit, … (enough pages to exhaust the filtered set)
reproduces the filtered task list exactly — every matching task appears
exactly once, none is duplicated, none is omitted. -/
theorem pagination_partition (store : List Task) (status priority : Option String)
    (limit n : Nat) (hl : 0 < limit)
    (hn : (filteredTasks store status priority).length ≤ n * limit) :
    (List.range n).flatMap
        (fun i => (TaskRepository.get_multi store (i * limit) limit status priority).1)
      = filteredTasks store status priority :=
  flatMap_chunks limit hl n (filteredTasks store status priority) hn

theorem pagination_partition_witness :
    0 < 2 ∧
    (filteredTasks [sampleTask 1, sampleTask 2, sampleTask 3] none none).length ≤ 2 * 2 ∧
    (List.range 2).flatMap
        (fun i => (TaskRepository.get_multi [sampleTask 1, sampleTask 2, sampleTask 3]
          (i * 2) 2 none none).1)
      = filteredTasks [sampleTask 1, sampleTask 2, sampleTask 3] none none :=
  ⟨by decide, by decide,
   pagination_partition [sampleTask 1, sampleTask 2, sampleTask 3] none none 2 2
     (by decide) (by decide)⟩

/-- C10: the HTTP list endpoint returns only the page of tasks; the total
the repository computed alongside the page is discarded (bound to `_`),
so two stores with different filter-matching totals but the same page
produce identical responses. -/
theorem get_tasks_discards_total :
    (∀ (store : List Task) (skip limit : Nat) (status priority : Option String),
        get_tasks store skip limit status priority
          = (TaskRepository.get_multi store skip limit status priority).1) ∧
    ∃ s1 s2 : List Task,
      (TaskRepository.get_multi s1 0 1 none none).2
          ≠ (TaskRepository.get_multi s2 0 1 none none).2 ∧
      get_tasks s1 0 1 none none = get_tasks s2 0 1 none none := by
  refine ⟨fun store skip limit status priority => rfl, ?_⟩
  exact ⟨[sampleTask 1, sampleTask 2], [sampleTask 1], by decide, by decide⟩

theorem sumStatusCounts_eq (tasks : List Task) :
    sumStatusCounts (status_counts tasks) = tasks.length := by
  induction tasks with
  | nil => rfl
  | cons t ts ih =>
      simp only [sumStatusCounts, status_counts, Status.all, List.map_cons,
        List.map_nil, List.sum_cons, List.sum_nil, List.countP_cons,
        List.length_cons] at ih ⊢
      cases t.status <;> simp <;> omega

theorem sumPriorityCounts_eq (tasks : List Task) :
    sumPriorityCounts (priority_counts tasks) = tasks.length := by
  induction tasks with
  | nil => rfl
  | cons t ts ih =>
      simp only [sumPriorityCounts, priority_counts, Priority.all, List.map_cons,
        List.map_nil, List.sum_cons, List.sum_nil, List.countP_cons,
        List.length_cons] at ih ⊢
      cases t.priority <;> simp <;> omega

/-- C5 counterexample: on a store of 1001 tasks the stats endpoint fetches
1000 tasks but reports the count-query result 1001 as `total`, so the
returned total is not the number of tasks fetched. -/
theorem stats_total_is_not_fetched_count :
    ((TaskRepository.get_multi ((List.range 1001).map sampleTask) 0 1000 none none).1.length
        = 1000) ∧
    ((get_task_stats ((List.range 1001).map sampleTask)).1 = 1001) ∧
    (get_task_stats ((List.range 1001).map sampleTask)).1
        ≠ (TaskRepository.get_multi ((List.range 1001).map sampleTask) 0 1000 none none).1.length := by
  have hf : filteredTasks ((List.range 1001).map sampleTask) none none
      = (List.range 1001).map sampleTask := filteredTasks_none _
  refine ⟨?_, ?_, ?_⟩
  · simp [TaskRepository.get_multi, hf]
  · simp [get_task_stats, TaskRepository.get_multi, hf]
  · simp [get_task_stats, TaskRepository.get_multi, hf]

/-- C5 (amended): the stats endpoint fetches at most 1000 tasks, computes
both frequency maps over exactly the fetched tasks, and reports as total
the count-query result over the whole (unfiltered) store; on every store
holding at most 1000 tasks the fetched set is the whole store, so the
sum of either frequency map equals the reported total. -/
theorem stats_sums (store : List Task) (h : store.length ≤ 1000) :
    (TaskRepository.get_multi store 0 1000 none none).1 = store ∧
    (get_task_stats store).2.1 = status_counts store ∧
    (get_task_stats store).2.2 = priority_counts store ∧
    (get_task_stats store).1 = store.length ∧
    sumStatusCounts (get_task_stats store).2.1 = (get_task_stats store).1 ∧
    sumPriorityCounts (get_task_stats store).2.2 = (get_task_stats store).1 := by
  have hf : filteredTasks store none none = store := filteredTasks_none store
  have hfetched : (TaskRepository.get_multi store 0 1000 none none).1 = store := by
    simp [TaskRepository.get_multi, hf, List.take_of_length_le h]
  refine ⟨hfetched, ?_, ?_, ?_, ?_, ?_⟩
  · simp [get_task_stats, hfetched]
  · simp [get_task_stats, hfetched]
  · simp [get_task_stats, TaskRepository.get_multi, hf]
  · simp [get_task_stats, hfetched, TaskRepository.get_multi, hf, sumStatusCounts_eq, h]
  · simp [get_task_stats, hfetched, TaskRepository.get_multi, hf, sumPriorityCounts_eq, h]

theorem stats_sums_witness :
    ([sampleTask 1, sampleTask 2, sampleTask 3] : List Task).length ≤ 1000 ∧
    ((TaskRepository.get_multi [sampleTask 1, sampleTask 2, sampleTask 3] 0 1000 none none).1
        = [sampleTask 1, sampleTask 2, sampleTask 3] ∧
     (get_task_stats [sampleTask 1, sampleTask 2, sampleTask 3]).2.1
        = status_counts [sampleTask 1, sampleTask 2, sampleTask 3] ∧
     (get_task_stats [sampleTask 1, sampleTask 2, sampleTask 3]).2.2
        = priority_counts [sampleTask 1, sampleTask 2, sampleTask 3] ∧
     (get_task_stats [sampleTask 1, sampleTask 2, sampleTask 3]).1 = 3 ∧
     sumStatusCounts (get_task_stats [sampleTask 1, sampleTask 2, sampleTask 3]).2.1
        = (get_task_stats [sampleTask 1, sampleTask 2, sampleTask 3]).1 ∧
     sumPriorityCounts (get_task_stats [sampleTask 1, sampleTask 2, sampleTask 3]).2.2
        = (get_task_stats [sampleTask 1, sampleTask 2, sampleTask 3]).1) :=
  ⟨by decide, stats_sums [sampleTask 1, sampleTask 2, sampleTask 3] (by decide)⟩

theorem priority_mem_all (p : Priority) : p ∈ Priority.all := by
  cases p <;> simp [Priority.all]

theorem status_mem_all (s : Status) : s ∈ Status.all := by
  cases s <;> simp [Status.all]

theorem flush_fields (r : TaskRow) (t' : Task) (h : r.flush = some t') :
    r.title = some t'.title ∧ r.description = t'.description ∧
    r.priority = some t'.priority ∧ r.status = some t'.status ∧
    r.due_date = t'.due_date ∧ r.id = t'.id ∧
    r.created_at = t'.created_at ∧ r.updated_at = t'.updated_at := by
  unfold TaskRow.flush at h
  rcases hr1 : r.title with _ | a <;> rcases hr2 : r.priority with _ | b <;>
    rcases hr3 : r.status with _ | c <;> rw [hr1, hr2, hr3] at h <;>
    simp only [Option.some.injEq, reduceCtorEq] at h <;> try exact absurd h (by simp)
  subst h
  simp [hr1, hr2, hr3]

/-- C4 counterexample: the payload `\x7b"title": null\x7d` passes the
boundary validation of `TaskUpdate` (every field is `Optional`, so an
explicit null is a valid value), yet applying it to a perfectly valid
stored task writes `None` into the `title` attribute; the request is not
rejected with a validation error at the boundary — it only fails later
at the database NOT NULL constraint. -/
theorem update_null_title_passes_boundary :
    TaskUpdate.fieldsOk nullTitleUpdate = true ∧
    Task.constraintsOk sampleValidTask = true ∧
    (applySetattr sampleValidTask.toRow nullTitleUpdate).title = none ∧
    TaskRepository.update sampleValidTask nullTitleUpdate = none := by
  decide

/-- C4 (amended): stored tasks always satisfy the invariants — a task
persisted by create or update has a 1–200 character title and enum-typed
priority and status; out-of-range titles and descriptions and invalid
enum strings are rejected at the boundary (422, embedded as `fieldsOk` /
parse failure).  The one path the claim overstated: a partial update may
set a field to an explicit null, which passes boundary validation and is
only rejected by the database NOT NULL constraint on flush (a
non-validation failure), so it still can never leave a stored task with
a null or empty title, priority, or status. -/
theorem task_invariants_preserved :
    (∀ (c : TaskCreate) (new_id : Nat) (now : Int), TaskCreate.fieldsOk c = true →
        Task.constraintsOk (TaskRepository.create c new_id now) = true ∧
        (TaskRepository.create c new_id now).priority ∈ Priority.all ∧
        (TaskRepository.create c new_id now).status ∈ Status.all) ∧
    (∀ (t : Task) (u : TaskUpdate) (t' : Task), Task.constraintsOk t = true →
        TaskUpdate.fieldsOk u = true → TaskRepository.update t u = some t' →
        Task.constraintsOk t' = true ∧
        t'.priority ∈ Priority.all ∧ t'.status ∈ Status.all) := by
  constructor
  · intro c new_id now hc
    refine ⟨?_, priority_mem_all _, status_mem_all _⟩
    simpa [Task.constraintsOk, TaskRepository.create, TaskCreate.fieldsOk] using hc
  · intro t u t' ht hu hup
    refine ⟨?_, priority_mem_all _, status_mem_all _⟩
    unfold TaskRepository.update at hup
    have hf := flush_fields _ _ hup
    obtain ⟨h1, h2, _, _, _, _, _, _⟩ := hf
    simp only [Task.constraintsOk, Bool.and_eq_true, decide_eq_true_eq] at ht ⊢
    simp only [TaskUpdate.fieldsOk, Bool.and_eq_true] at hu
    constructor
    · rcases hut : u.title with _ | v
      · rw [applySetattr] at h1
        simp only [hut, Task.toRow] at h1
        have he : t.title = t'.title := by
          simpa using h1
        exact ⟨by rw [← he]; exact ht.1.1, by rw [← he]; exact ht.1.2⟩
      · rcases v with _ | s
        · rw [applySetattr] at h1
          simp [hut] at h1
        · rw [applySetattr] at h1
          simp only [hut, Option.some.injEq] at h1
          have hs : s = t'.title := by simpa using h1
          have := hu.1
          rw [hut] at this
          simp only [decide_eq_true_eq, Bool.and_eq_true] at this
          exact ⟨by rw [← hs]; exact this.1, by rw [← hs]; exact this.2⟩
    · rcases hud : u.description with _ | v
      · rw [applySetattr] at h2
        simp only [hud, Task.toRow] at h2
        rw [← h2]
        exact ht.2
      · rcases v with _ | d
        · rw [applySetattr] at h2
          simp only [hud] at h2
          rw [← h2]
        · rw [applySetattr] at h2
          simp only [hud] at h2
          rw [← h2]
          have := hu.2
          rw [hud] at this
          simpa using this

theorem task_invariants_preserved_witness :
    TaskCreate.fieldsOk { title := "Buy milk" } = true ∧
    (Task.constraintsOk (TaskRepository.create { title := "Buy milk" } 1 0) = true ∧
     (TaskRepository.create { title := "Buy milk" } 1 0).priority ∈ Priority.all ∧
     (TaskRepository.create { title := "Buy milk" } 1 0).status ∈ Status.all) ∧
    (Task.constraintsOk sampleValidTask = true ∧
     TaskUpdate.fieldsOk { status := some (some .done) } = true ∧
     TaskRepository.update sampleValidTask { status := some (some .done) }
        = some { sampleValidTask with status := .done }) ∧
    (Task.constraintsOk { sampleValidTask with status := Status.done } = true ∧
     ({ sampleValidTask with status := Status.done } : Task).priority ∈ Priority.all ∧
     ({ sampleValidTask with status := Status.done } : Task).status ∈ Status.all) :=
  ⟨by decide,
   task_invariants_preserved.1 { title := "Buy milk" } 1 0 (by decide),
   ⟨by decide, by decide, by decide⟩,
   task_invariants_preserved.2 sampleValidTask { status := some (some .done) }
     { sampleValidTask with status := .done } (by decide) (by decide) (by decide)⟩

/-- C8: a successful partial update changes only the payload-present
fields: `id`, `created_at` and `updated_at` are never touched (they are
not `TaskUpdate` fields), and every field absent from the payload keeps
its previous value — in particular a status-only payload leaves title,
description, priority and due_date unchanged. -/
theorem update_preserves_absent_fields (t : Task) (u : TaskUpdate) (t' : Task)
    (h : TaskRepository.update t u = some t') :
    t'.id = t.id ∧ t'.created_at = t.created_at ∧ t'.updated_at = t.updated_at ∧
    (u.title = none → t'.title = t.title) ∧
    (u.description = none → t'.description = t.description) ∧
    (u.priority = none → t'.priority = t.priority) ∧
    (u.status = none → t'.status = t.status) ∧
    (u.due_date = none → t'.due_date = t.due_date) := by
  unfold TaskRepository.update at h
  obtain ⟨h1, h2, h3, h4, h5, h6, h7, h8⟩ := flush_fields _ _ h
  rw [applySetattr] at h1 h2 h3 h4 h5
  simp only [Task.toRow] at h1 h2 h3 h4 h5 h6 h7 h8
  refine ⟨h6.symm, h7.symm, h8.symm, ?_, ?_, ?_, ?_, ?_⟩
  · intro hu; rw [hu] at h1; simpa using h1.symm
  · intro hu; rw [hu] at h2; exact h2.symm
  · intro hu; rw [hu] at h3; simpa using h3.symm
  · intro hu; rw [hu] at h4; simpa using h4.symm
  · intro hu; rw [hu] at h5; exact h5.symm

theorem update_preserves_absent_fields_witness :
    TaskRepository.update sampleValidTask { status := some (some .done) }
        = some { sampleValidTask with status := .done } ∧
    (({ sampleValidTask with status := Status.done } : Task).id = sampleValidTask.id ∧
     ({ sampleValidTask with status := Status.done } : Task).created_at = sampleValidTask.created_at ∧
     ({ sampleValidTask with status := Status.done } : Task).updated_at = sampleValidTask.updated_at ∧
     (({ status := some (some .done) } : TaskUpdate).title = none →
        ({ sampleValidTask with status := Status.done } : Task).title = sampleValidTask.title) ∧
     (({ status := some (some .done) } : TaskUpdate).description = none →
        ({ sampleValidTask with status := Status.done } : Task).description = sampleValidTask.description) ∧
     (({ status := some (some .done) } : TaskUpdate).priority = none →
        ({ sampleValidTask with status := Status.done } : Task).priority = sampleValidTask.priority) ∧
     (({ status := some (some .done) } : TaskUpdate).status = none →
        ({ sampleValidTask with status := Status.done } : Task).status = sampleValidTask.status) ∧
     (({ status := some (some .done) } : TaskUpdate).due_date = none →
        ({ sampleValidTask with status := Status.done } : Task).due_date = sampleValidTask.due_date)) :=
  ⟨by decide,
   update_preserves_absent_fields sampleValidTask { status := some (some .done) }
     { sampleValidTask with status := .done } (by decide)⟩

/-- C9: delete is a hard delete with not-found failure semantics.  On an
absent id the repository reports `false`, the store is unchanged and the
endpoint answers 404; on a present id (ids unique, as the primary key
guarantees) it reports `true`, the endpoint answers 204, and afterwards
both `get` and any repeated delete of the same id report not-found (404)
while leaving the store unchanged. -/
theorem delete_semantics (store : List Task) (task_id : Nat)
    (hnd : (store.map Task.id).Nodup) :
    (TaskRepository.get store task_id = none →
        TaskRepository.delete store task_id = (store, false) ∧
        delete_task store task_id = (store, 404)) ∧
    (∀ t, TaskRepository.get store task_id = some t →
        (TaskRepository.delete store task_id).2 = true ∧
        delete_task store task_id = ((TaskRepository.delete store task_id).1, 204) ∧
        TaskRepository.get (TaskRepository.delete store task_id).1 task_id = none ∧
        TaskRepository.delete (TaskRepository.delete store task_id).1 task_id
            = ((TaskRepository.delete store task_id).1, false) ∧
        delete_task (TaskRepository.delete store task_id).1 task_id
            = ((TaskRepository.delete store task_id).1, 404)) := by
  constructor
  · intro hget
    constructor
    · simp [TaskRepository.delete, hget]
    · simp [delete_task, TaskRepository.delete, hget]
  · intro t hget
    have hdel : TaskRepository.delete store task_id = (store.erase t, true) := by
      simp [TaskRepository.delete, hget]
    have htmem : t ∈ store := List.mem_of_find?_eq_some hget
    have htid : t.id = task_id := by
      have := List.find?_some hget
      simpa using this
    have hnodup : store.Nodup := hnd.of_map _
    have hget2 : TaskRepository.get (store.erase t) task_id = none := by
      unfold TaskRepository.get
      rw [List.find?_eq_none]
      intro u hu
      obtain ⟨hne, hmem⟩ := hnodup.mem_erase_iff.mp hu
      simp only [beq_iff_eq]
      intro huid
      exact hne (List.inj_on_of_nodup_map hnd hmem htmem (by rw [huid, htid]))
    refine ⟨by rw [hdel], by simp [delete_task, hdel], by rw [hdel]; exact hget2, ?_, ?_⟩
    · rw [hdel]
      simp [TaskRepository.delete, hget2]
    · rw [hdel]
      simp [delete_task, TaskRepository.delete, hget2]

theorem delete_semantics_witness :
    (([sampleValidTask].map Task.id).Nodup ∧
     TaskRepository.get [sampleValidTask] 1 = some sampleValidTask ∧
     TaskRepository.get [sampleValidTask] 999999 = none) ∧
    (TaskRepository.get [sampleValidTask] 999999 = none →
        TaskRepository.delete [sampleValidTask] 999999 = ([sampleValidTask], false) ∧
        delete_task [sampleValidTask] 999999 = ([sampleValidTask], 404)) ∧
    (∀ t, TaskRepository.get [sampleValidTask] 1 = some t →
        (TaskRepository.delete [sampleValidTask] 1).2 = true ∧
        delete_task [sampleValidTask] 1 = ((TaskRepository.delete [sampleValidTask] 1).1, 204) ∧
        TaskRepository.get (TaskRepository.delete [sampleValidTask] 1).1 1 = none ∧
        TaskRepository.delete (TaskRepository.delete [sampleValidTask] 1).1 1
            = ((TaskRepository.delete [sampleValidTask] 1).1, false) ∧
        delete_task (TaskRepository.delete [sampleValidTask] 1).1 1
            = ((TaskRepository.delete [sampleValidTask] 1).1, 404)) :=
  ⟨⟨by decide, by decide, by decide⟩,
   (delete_semantics [sampleValidTask] 999999 (by decide)).1,
   (delete_semantics [sampleValidTask] 1 (by decide)).2⟩

theorem headersContain_eq_isSome (hs : List (String × String)) (name : String) :
    headersContain hs name = (headerGet? hs name).isSome := by
  induction hs with
  | nil => rfl
  | cons p ps ih =>
      cases hp : (nameKey p.1 == nameKey name) <;>
        simp [headersContain, headerGet?, List.find?_cons, hp] <;>
        simpa [headersContain, headerGet?] using ih

theorem find?_append_of_some {α : Type} (p : α → Bool) {l1 : List α} (l2 : List α)
    {a : α} (h : l1.find? p = some a) : (l1 ++ l2).find? p = some a := by
  simp [List.find?_append, h]

theorem find?_append_of_none {α : Type} (p : α → Bool) {l1 : List α} (l2 : List α)
    (h : l1.find? p = none) : (l1 ++ l2).find? p = l2.find? p := by
  simp [List.find?_append, h]

theorem headerGet?_setIfAbsent_of_some {hs : List (String × String)}
    {m v : String} (name val : String) (h : headerGet? hs m = some v) :
    headerGet? (setIfAbsent hs name val) m = some v := by
  unfold setIfAbsent
  split
  · exact h
  · unfold headerGet? at h ⊢
    rcases hfind : hs.find? (fun p => nameKey p.1 == nameKey m) with _ | pair
    · rw [hfind] at h; simp at h
    · rw [hfind] at h
      rw [find?_append_of_some _ _ hfind]
      exact h

theorem headerGet?_foldl_of_some (L : List (String × String))
    {hs : List (String × String)} {m v : String} (h : headerGet? hs m = some v) :
    headerGet? (L.foldl (fun hs p => setIfAbsent hs p.1 p.2) hs) m = some v := by
  induction L generalizing hs with
  | nil => exact h
  | cons q L ih =>
      exact ih (headerGet?_setIfAbsent_of_some q.1 q.2 h)

theorem headerGet?_setIfAbsent_ne {name m : String}
    (hs : List (String × String)) (val : String)
    (h : (nameKey name == nameKey m) = false) :
    headerGet? (setIfAbsent hs name val) m = headerGet? hs m := by
  unfold setIfAbsent
  split
  · rfl
  · unfold headerGet?
    rcases hfind : hs.find? (fun p => nameKey p.1 == nameKey m) with _ | pair
    · rw [find?_append_of_none _ _ hfind, hfind]
      simp [List.find?_cons, h]
    · rw [find?_append_of_some _ _ hfind, hfind]

theorem headerGet?_setIfAbsent_self {hs : List (String × String)} {name : String}
    (val : String) (h : headerGet? hs name = none) :
    headerGet? (setIfAbsent hs name val) name = some val := by
  unfold setIfAbsent
  rw [if_neg]
  · unfold headerGet? at h ⊢
    rcases hfind : hs.find? (fun p => nameKey p.1 == nameKey name) with _ | pair
    · rw [find?_append_of_none _ _ hfind]
      simp [List.find?_cons]
    · rw [hfind] at h; simp at h
  · rw [headersContain_eq_isSome, h]
    simp

theorem headerGet?_foldl_set (L : List (String × String)) :
    ∀ (hs : List (String × String)) (name val : String), (name, val) ∈ L →
      (L.map (fun p => nameKey p.1)).Nodup →
      headerGet? hs name = none →
      headerGet? (L.foldl (fun hs p => setIfAbsent hs p.1 p.2) hs) name = some val := by
  induction L with
  | nil => intro hs name val hmem; simp at hmem
  | cons q L ih =>
      intro hs name val hmem hnd habs
      rcases List.mem_cons.mp hmem with hq | hL
      · subst hq
        simp only [List.foldl_cons]
        exact headerGet?_foldl_of_some L (headerGet?_setIfAbsent_self val habs)
      · simp only [List.map_cons, List.nodup_cons] at hnd
        have hne : (nameKey q.1 == nameKey name) = false := by
          rw [beq_eq_false_iff_ne]
          intro heq
          exact hnd.1 (heq ▸ List.mem_map_of_mem (fun p => nameKey p.1) hL)
        simp only [List.foldl_cons]
        exact ih _ name val hL hnd.2 (by rw [headerGet?_setIfAbsent_ne _ _ hne]; exact habs)

set_option maxHeartbeats 2000000 in
/-- C2: every response leaving the middleware carries each of the seven
hardening headers: a header absent from the incoming response is
appended with its fixed value, and a header already present keeps its
pre-existing value untouched (set only if not already present). -/
theorem security_headers_complete (resp : Response) :
    (∀ p ∈ securityHeaderList,
        headerGet? resp.headers p.1 = none →
        headerGet? (SecurityHeadersMiddleware.dispatch resp).headers p.1 = some p.2) ∧
    (∀ p ∈ securityHeaderList,
        headersContain (SecurityHeadersMiddleware.dispatch resp).headers p.1 = true) ∧
    (∀ (name v : String), headerGet? resp.headers name = some v →
        headerGet? (SecurityHeadersMiddleware.dispatch resp).headers name = some v) := by
  have hnd : (securityHeaderList.map (fun p => nameKey p.1)).Nodup := by decide
  refine ⟨?_, ?_, ?_⟩
  · intro p hp habs
    exact headerGet?_foldl_set securityHeaderList resp.headers p.1 p.2
      (by simpa using hp) hnd habs
  · intro p hp
    rw [headersContain_eq_isSome]
    have hd : (SecurityHeadersMiddleware.dispatch resp).headers
        = securityHeaderList.foldl (fun hs p => setIfAbsent hs p.1 p.2) resp.headers := rfl
    rw [hd]
    rcases hbefore : headerGet? resp.headers p.1 with _ | v
    · rw [headerGet?_foldl_set securityHeaderList resp.headers p.1 p.2
        (by simpa using hp) hnd hbefore]
      rfl
    · rw [headerGet?_foldl_of_some securityHeaderList hbefore]
      rfl
  · intro name v hv
    have hd : (SecurityHeadersMiddleware.dispatch resp).headers
        = securityHeaderList.foldl (fun hs p => setIfAbsent hs p.1 p.2) resp.headers := rfl
    rw [hd]
    exact headerGet?_foldl_of_some securityHeaderList hv

set_option maxHeartbeats 2000000 in
theorem security_headers_complete_witness :
    (("X-Frame-Options", "DENY") ∈ securityHeaderList ∧
     headerGet? (⟨404, "Not Found", []⟩ : Response).headers "X-Frame-Options" = none) ∧
    headerGet? (SecurityHeadersMiddleware.dispatch ⟨404, "Not Found", []⟩).headers
        "X-Frame-Options" = some "DENY" ∧
    headersContain (SecurityHeadersMiddleware.dispatch ⟨404, "Not Found", []⟩).headers
        "Strict-Transport-Security" = true ∧
    headerGet? (SecurityHeadersMiddleware.dispatch
        ⟨200, "ok", [("X-Frame-Options", "SAMEORIGIN")]⟩).headers
        "X-Frame-Options" = some "SAMEORIGIN" :=
  ⟨⟨by decide, by decide⟩,
   (security_headers_complete ⟨404, "Not Found", []⟩).1 ("X-Frame-Options", "DENY")
     (by decide) (by decide),
   (security_headers_complete ⟨404, "Not Found", []⟩).2.1 ("Strict-Transport-Security",
     "max-age=31536000; includeSubDomains") (by decide),
   (security_headers_complete ⟨200, "ok", [("X-Frame-Options", "SAMEORIGIN")]⟩).2.2
     "X-Frame-Options" "SAMEORIGIN" (by decide)⟩

/-- C3: the security-header middleware mutates only headers — the body
and status code of every response are identical before and after it
runs — and it never overwrites a header already set earlier in the
pipeline; in particular, because it executes after CORS header
assignment on the outbound path, every `access-control-*` (indeed every)
header the CORS layer set survives with its value unchanged. -/
theorem dispatch_pure_header_mutation (resp : Response) :
    (SecurityHeadersMiddleware.dispatch resp).statusCode = resp.statusCode ∧
    (SecurityHeadersMiddleware.dispatch resp).body = resp.body ∧
    (∀ (name v : String), headerGet? resp.headers name = some v →
        headerGet? (SecurityHeadersMiddleware.dispatch resp).headers name = some v) ∧
    (∀ (cors : Response → Response) (name v : String),
        headerGet? (cors resp).headers name = some v →
        headerGet? (outboundPipeline cors resp).headers name = some v) := by
  refine ⟨rfl, rfl, ?_, ?_⟩
  · intro name v hv
    exact headerGet?_foldl_of_some securityHeaderList hv
  · intro cors name v hv
    have hd : (outboundPipeline cors resp).headers
        = securityHeaderList.foldl (fun hs p => setIfAbsent hs p.1 p.2) (cors resp).headers := rfl
    rw [hd]
    exact headerGet?_foldl_of_some securityHeaderList hv

theorem dispatch_pure_header_mutation_witness :
    (headerGet? (⟨200, "ok", [("access-control-allow-origin", "http://localhost:3000")]⟩
        : Response).headers "access-control-allow-origin" = some "http://localhost:3000") ∧
    (SecurityHeadersMiddleware.dispatch
        ⟨200, "ok", [("access-control-allow-origin", "http://localhost:3000")]⟩).statusCode = 200 ∧
    (SecurityHeadersMiddleware.dispatch
        ⟨200, "ok", [("access-control-allow-origin", "http://localhost:3000")]⟩).body = "ok" ∧
    headerGet? (SecurityHeadersMiddleware.dispatch
        ⟨200, "ok", [("access-control-allow-origin", "http://localhost:3000")]⟩).headers
        "access-control-allow-origin" = some "http://localhost:3000" :=
  ⟨by decide,
   (dispatch_pure_header_mutation
     ⟨200, "ok", [("access-control-allow-origin", "http://localhost:3000")]⟩).1,
   (dispatch_pure_header_mutation
     ⟨200, "ok", [("access-control-allow-origin", "http://localhost:3000")]⟩).2.1,
   (dispatch_pure_header_mutation
     ⟨200, "ok", [("access-control-allow-origin", "http://localhost:3000")]⟩).2.2.1
     "access-control-allow-origin" "http://localhost:3000" (by decide)⟩

theorem lookup_setBucket_self (st : LimiterState) (key : RateKey) (b : Bucket) :
    (setBucket st key b).lookup key = some b := by
  simp [setBucket, List.lookup]

theorem runSeq_window (key : RateKey) (n w : Nat) :
    ∀ (ts : List Nat) (st : LimiterState) (c : Nat),
      st.lookup key = some ⟨w, c⟩ →
      (∀ t ∈ ts, w ≤ t ∧ t < w + 60) →
      runSeq key n st ts
        = (List.range ts.length).map (fun i => decide (c + i + 1 ≤ n)) := by
  intro ts
  induction ts with
  | nil => intro st c _ _; rfl
  | cons t ts ih =>
      intro st c hlk hts
      have hw := hts t (List.mem_cons_self t ts)
      have hnoreset : ¬ (w + 60 ≤ t) := by omega
      have hhit : hit st key t n
          = (setBucket st key ⟨w, c + 1⟩, decide (c + 1 ≤ n)) := by
        simp [hit, hlk, hnoreset]
      show (hit st key t n).2 :: runSeq key n (hit st key t n).1 ts = _
      rw [hhit]
      have htail := ih (setBucket st key ⟨w, c + 1⟩) (c + 1)
        (lookup_setBucket_self st key ⟨w, c + 1⟩)
        (fun t' ht' => hts t' (List.mem_cons_of_mem t ht'))
      rw [htail, List.length_cons, List.range_succ_eq_map, List.map_cons,
        List.map_map]
      congr 1
      refine List.map_congr_left ?_
      intro i _
      simp only [Function.comp_apply]
      have harith : c + Nat.succ i + 1 = c + 1 + i + 1 := by omega
      rw [harith]

/-- C1: on any rate-limited route with declared quota `n` per 60-second
window, a sequence of requests from one client key all inside one fixed
window (the first request at `t0` creates the bucket; the rest arrive
before `t0 + 60`) is admitted exactly on its first `n` requests: the
k-th request (1-based) has post-increment count `k` and is allowed iff
`k ≤ n`, and a rejected request short-circuits with 429 without invoking
the endpoint handler or touching its state, while an admitted request
runs the handler and returns its status. -/
theorem fixed_window_quota (n : Nat) (addr route : String) (t0 : Nat)
    (ts : List Nat)
    (hq : routeQuotas.lookup route = some n)
    (hts : ∀ t ∈ ts, t0 ≤ t ∧ t < t0 + 60) :
    runSeq (addr, route) n [] (t0 :: ts)
        = (List.range (ts.length + 1)).map (fun i => decide (i + 1 ≤ n)) ∧
    (∀ (st : LimiterState) (now : Nat) {σ : Type} (handler : σ → σ × Nat) (s : σ),
        (hit st (addr, route) now n).2 = false →
        rateLimitedCall st (addr, route) now n handler s
          = ((hit st (addr, route) now n).1, s, 429)) ∧
    (∀ (st : LimiterState) (now : Nat) {σ : Type} (handler : σ → σ × Nat) (s : σ),
        (hit st (addr, route) now n).2 = true →
        rateLimitedCall st (addr, route) now n handler s
          = ((hit st (addr, route) now n).1, (handler s).1, (handler s).2)) := by
  refine ⟨?_, ?_, ?_⟩
  · have hhit0 : hit [] (addr, route) t0 n
        = (setBucket [] (addr, route) ⟨t0, 1⟩, decide (1 ≤ n)) := by
      simp [hit]
    show (hit [] (addr, route) t0 n).2
        :: runSeq (addr, route) n (hit [] (addr, route) t0 n).1 ts = _
    rw [hhit0]
    have htail := runSeq_window (addr, route) n t0 ts
      (setBucket [] (addr, route) ⟨t0, 1⟩) 1
      (lookup_setBucket_self [] (addr, route) ⟨t0, 1⟩) hts
    rw [htail, List.range_succ_eq_map, List.map_cons, List.map_map]
    congr 1
    refine List.map_congr_left ?_
    intro i _
    simp only [Function.comp_apply]
    have harith : Nat.succ i + 1 = 1 + i + 1 := by omega
    rw [harith]
  · intro st now σ handler s hrej
    simp [rateLimitedCall, hrej]
  · intro st now σ handler s hok
    simp [rateLimitedCall, hok]

theorem fixed_window_quota_witness :
    (routeQuotas.lookup "create_task" = some 20 ∧
     (∀ t ∈ List.replicate 24 (0 : Nat), 0 ≤ t ∧ t < 0 + 60)) ∧
    runSeq ("203.0.113.7", "create_task") 20 [] (0 :: List.replicate 24 0)
        = List.replicate 20 true ++ List.replicate 5 false :=
  ⟨⟨by decide, by decide⟩,
   ((fixed_window_quota 20 "203.0.113.7" "create_task" 0 (List.replicate 24 0)
       (by decide) (by decide)).1).trans (by decide)⟩

end TaskFlow
